import Mathlib

/-!
Verification of the statistical-distribution core (Normal / LogNormal
distributions and the shared polar-method sampling engine) of the statrs
repository, shallowly embedded from `src/distribution/normal.rs`.

Floating-point values are modelled by `Statrs.F64`: an idealized IEEE-754
double with a NaN, two infinities, and exact real arithmetic on finite
values (rounding and overflow are not modelled; the special-value
propagation rules of IEEE-754 are).
-/

namespace Statrs

/-- Model of an IEEE-754 `f64`: NaN, the two infinities, or a finite value
(idealized as an exact real number; the sign of zero is not modelled). -/
inductive F64 : Type where
  | NaN : F64
  | posInf : F64
  | negInf : F64
  | fin : ℝ → F64

namespace F64

/-- Model of Rust `f64::is_nan`. -/
def isNaN : F64 → Bool
  | NaN => true
  | _ => false

/-- IEEE negation. -/
def neg : F64 → F64
  | NaN => NaN
  | posInf => negInf
  | negInf => posInf
  | fin x => fin (-x)

/-- IEEE addition: NaN is absorbing, opposite infinities give NaN. -/
def add : F64 → F64 → F64
  | NaN, _ => NaN
  | _, NaN => NaN
  | posInf, negInf => NaN
  | negInf, posInf => NaN
  | posInf, _ => posInf
  | _, posInf => posInf
  | negInf, _ => negInf
  | _, negInf => negInf
  | fin x, fin y => fin (x + y)

/-- IEEE subtraction, as addition of the negation. -/
def sub (x y : F64) : F64 := add x (neg y)

open Classical in
/-- IEEE multiplication: NaN absorbing, `∞ · 0 = NaN`, signs of
infinities resolved by the sign of the finite factor. -/
noncomputable def mul : F64 → F64 → F64
  | NaN, _ => NaN
  | _, NaN => NaN
  | posInf, posInf => posInf
  | posInf, negInf => negInf
  | negInf, posInf => negInf
  | negInf, negInf => posInf
  | posInf, fin y => if y = 0 then NaN else if 0 < y then posInf else negInf
  | fin x, posInf => if x = 0 then NaN else if 0 < x then posInf else negInf
  | negInf, fin y => if y = 0 then NaN else if 0 < y then negInf else posInf
  | fin x, negInf => if x = 0 then NaN else if 0 < x then negInf else posInf
  | fin x, fin y => fin (x * y)

open Classical in
/-- IEEE division: NaN absorbing, `∞/∞ = NaN`, `0/0 = NaN`, division of a
nonzero finite value by zero gives a signed infinity (zero is treated as
`+0`), finite over infinite gives zero. -/
noncomputable def div : F64 → F64 → F64
  | NaN, _ => NaN
  | _, NaN => NaN
  | posInf, posInf => NaN
  | posInf, negInf => NaN
  | negInf, posInf => NaN
  | negInf, negInf => NaN
  | posInf, fin y => if 0 ≤ y then posInf else negInf
  | negInf, fin y => if 0 ≤ y then negInf else posInf
  | fin _, posInf => fin 0
  | fin _, negInf => fin 0
  | fin x, fin y =>
      if y = 0 then (if x = 0 then NaN else if 0 < x then posInf else negInf)
      else fin (x / y)

/-- IEEE `exp`: `exp(−∞) = 0`, `exp(+∞) = +∞`. -/
noncomputable def exp : F64 → F64
  | NaN => NaN
  | posInf => posInf
  | negInf => fin 0
  | fin x => fin (Real.exp x)

open Classical in
/-- IEEE `ln`: `ln` of a negative value (including `−∞`) is NaN,
`ln 0 = −∞`, `ln(+∞) = +∞`. -/
noncomputable def ln : F64 → F64
  | NaN => NaN
  | posInf => posInf
  | negInf => NaN
  | fin x => if x < 0 then NaN else if x = 0 then negInf else fin (Real.log x)

open Classical in
/-- IEEE `sqrt`: `sqrt` of a negative value (including `−∞`) is NaN. -/
noncomputable def sqrt : F64 → F64
  | NaN => NaN
  | posInf => posInf
  | negInf => NaN
  | fin x => if x < 0 then NaN else fin (Real.sqrt x)

/-- IEEE `<`: NaN compares false with everything. -/
def lt : F64 → F64 → Prop
  | NaN, _ => False
  | _, NaN => False
  | negInf, negInf => False
  | negInf, _ => True
  | posInf, _ => False
  | _, posInf => True
  | fin _, negInf => False
  | fin x, fin y => x < y

/-- IEEE `<=`: NaN compares false with everything. -/
def le : F64 → F64 → Prop
  | NaN, _ => False
  | _, NaN => False
  | negInf, _ => True
  | _, posInf => True
  | posInf, _ => False
  | fin _, negInf => False
  | fin x, fin y => x ≤ y

/-- IEEE `==`: NaN is not equal to anything, including itself. -/
def ieeeEq : F64 → F64 → Prop
  | NaN, _ => False
  | _, NaN => False
  | posInf, posInf => True
  | negInf, negInf => True
  | fin x, fin y => x = y
  | _, _ => False

end F64

/-- The single error kind of the library, from `error::StatsError`
(`src/error.rs`, referenced by `normal.rs`). -/
inductive StatsError : Type where
  | BadParams : StatsError

/-- Modelled from the spec: the constant `consts::SQRT_2PI` (√(2π)) of the
library's constants module, which is not under `src/`. -/
noncomputable def SQRT_2PI : F64 := F64.fin (Real.sqrt (2 * Real.pi))

/-- Modelled from the spec: the constant `consts::LN_SQRT_2PI`
(ln √(2π)) of the library's constants module, which is not under `src/`. -/
noncomputable def LN_SQRT_2PI : F64 := F64.fin (Real.log (Real.sqrt (2 * Real.pi)))

/-- Modelled from the spec: the constant `consts::LN_SQRT_2PIE`
(ln √(2πe)) of the library's constants module, which is not under `src/`. -/
noncomputable def LN_SQRT_2PIE : F64 :=
  F64.fin (Real.log (Real.sqrt (2 * Real.pi * Real.exp 1)))

/-- The constant `std::f64::consts::SQRT_2`. -/
noncomputable def SQRT_2 : F64 := F64.fin (Real.sqrt 2)

/-- Modelled from the spec: the external complementary-error-function
collaborator (`functions::erf::erfc`, not under `src/`). The spec assigns
it standard mathematical semantics over all reals including ±∞
(`erfc(+∞) = 0`, `erfc(−∞) = 2`); NaN propagates per IEEE-754. Its finite
part is a parameter `f : ℝ → ℝ`, constrained where a claim needs it. -/
def liftErfc (f : ℝ → ℝ) : F64 → F64
  | F64.NaN => F64.NaN
  | F64.posInf => F64.fin 0
  | F64.negInf => F64.fin 2
  | F64.fin t => F64.fin (f t)

/-- `pub struct Normal { mu: f64, sigma: f64 }`. -/
structure Normal : Type where
  mu : F64
  sigma : F64

/-- `pub struct LogNormal { mu: f64, sigma: f64 }`. -/
structure LogNormal : Type where
  mu : F64
  sigma : F64

open Classical in
/-- `Normal::new`: rejects NaN `mean`, NaN `std_dev`, and `std_dev <= 0.0`
(IEEE comparison), otherwise stores the arguments unchanged. -/
noncomputable def Normal.new (mean std_dev : F64) : Except StatsError Normal :=
  if mean.isNaN = true ∨ std_dev.isNaN = true ∨ F64.le std_dev (F64.fin 0) then
    Except.error StatsError.BadParams
  else
    Except.ok ⟨mean, std_dev⟩

open Classical in
/-- `LogNormal::new`: the same validation as `Normal::new`. -/
noncomputable def LogNormal.new (mean std_dev : F64) : Except StatsError LogNormal :=
  if mean.isNaN = true ∨ std_dev.isNaN = true ∨ F64.le std_dev (F64.fin 0) then
    Except.error StatsError.BadParams
  else
    Except.ok ⟨mean, std_dev⟩

/-- `Normal::mean`. -/
def Normal.mean (d : Normal) : F64 := d.mu

/-- `Normal::variance`: `sigma * sigma`. -/
noncomputable def Normal.variance (d : Normal) : F64 := F64.mul d.sigma d.sigma

/-- `Normal::std_dev`. -/
def Normal.std_dev (d : Normal) : F64 := d.sigma

/-- `Normal::entropy`: `sigma.ln() + LN_SQRT_2PIE`. -/
noncomputable def Normal.entropy (d : Normal) : F64 :=
  F64.add (F64.ln d.sigma) LN_SQRT_2PIE

/-- `Normal::skewness`: the constant `0.0`. -/
def Normal.skewness (d : Normal) : F64 := F64.fin 0

/-- `Normal::median`: `Some(mu)`. -/
def Normal.median (d : Normal) : Option F64 := some d.mu

/-- `Normal::cdf`: `Ok(0.5 * erfc((mu - x) / (sigma * SQRT_2)))`, with the
erfc collaborator passed explicitly. -/
noncomputable def Normal.cdf (erfc : F64 → F64) (d : Normal) (x : F64) :
    Except StatsError F64 :=
  Except.ok (F64.mul (F64.fin (1 / 2))
    (erfc (F64.div (F64.sub d.mu x) (F64.mul d.sigma SQRT_2))))

/-- `Normal::mode`: `mu`. -/
def Normal.mode (d : Normal) : F64 := d.mu

/-- `Normal::min`: `f64::NEG_INFINITY`. -/
def Normal.min (d : Normal) : F64 := F64.negInf

/-- `Normal::max`: `f64::INFINITY`. -/
def Normal.max (d : Normal) : F64 := F64.posInf

/-- `Normal::pdf`: `(-0.5 * d * d).exp() / (SQRT_2PI * sigma)` with
`d = (x - mu) / sigma`. -/
noncomputable def Normal.pdf (d : Normal) (x : F64) : F64 :=
  let dd := F64.div (F64.sub x d.mu) d.sigma
  F64.div (F64.exp (F64.mul (F64.mul (F64.fin (-(1 / 2))) dd) dd))
    (F64.mul SQRT_2PI d.sigma)

/-- `Normal::ln_pdf`: `(-0.5 * d * d) - LN_SQRT_2PI - sigma.ln()` with
`d = (x - mu) / sigma`. -/
noncomputable def Normal.ln_pdf (d : Normal) (x : F64) : F64 :=
  let dd := F64.div (F64.sub x d.mu) d.sigma
  F64.sub (F64.sub (F64.mul (F64.mul (F64.fin (-(1 / 2))) dd) dd) LN_SQRT_2PI)
    (F64.ln d.sigma)

/-- `LogNormal::mean`: `(mu + sigma * sigma / 2.0).exp()`. -/
noncomputable def LogNormal.mean (d : LogNormal) : F64 :=
  F64.exp (F64.add d.mu (F64.div (F64.mul d.sigma d.sigma) (F64.fin 2)))

/-- `LogNormal::variance`: `(sigma2.exp() - 1.0) * (mu + mu + sigma2).exp()`
with `sigma2 = sigma * sigma`. -/
noncomputable def LogNormal.variance (d : LogNormal) : F64 :=
  let sigma2 := F64.mul d.sigma d.sigma
  F64.mul (F64.sub (F64.exp sigma2) (F64.fin 1))
    (F64.exp (F64.add (F64.add d.mu d.mu) sigma2))

/-- `LogNormal::std_dev`: `variance().sqrt()`. -/
noncomputable def LogNormal.std_dev (d : LogNormal) : F64 :=
  F64.sqrt (LogNormal.variance d)

/-- `LogNormal::entropy`: `0.5 + sigma.ln() + mu + LN_SQRT_2PI`. -/
noncomputable def LogNormal.entropy (d : LogNormal) : F64 :=
  F64.add (F64.add (F64.add (F64.fin (1 / 2)) (F64.ln d.sigma)) d.mu) LN_SQRT_2PI

/-- `LogNormal::skewness`: `(expsigma2 + 2.0) * (expsigma2 - 1.0).sqrt()`
with `expsigma2 = (sigma * sigma).exp()`. -/
noncomputable def LogNormal.skewness (d : LogNormal) : F64 :=
  let expsigma2 := F64.exp (F64.mul d.sigma d.sigma)
  F64.mul (F64.add expsigma2 (F64.fin 2)) (F64.sqrt (F64.sub expsigma2 (F64.fin 1)))

/-- `LogNormal::median`: `Some(mu.exp())`. -/
noncomputable def LogNormal.median (d : LogNormal) : Option F64 :=
  some (F64.exp d.mu)

open Classical in
/-- `LogNormal::cdf`: `Ok(0.0)` when `x < 0.0`, otherwise
`Ok(0.5 * erfc((mu - x.ln()) / (sigma * SQRT_2)))`. -/
noncomputable def LogNormal.cdf (erfc : F64 → F64) (d : LogNormal) (x : F64) :
    Except StatsError F64 :=
  if F64.lt x (F64.fin 0) then
    Except.ok (F64.fin 0)
  else
    Except.ok (F64.mul (F64.fin (1 / 2))
      (erfc (F64.div (F64.sub d.mu (F64.ln x)) (F64.mul d.sigma SQRT_2))))

/-- `LogNormal::mode`: `(mu - sigma * sigma).exp()`. -/
noncomputable def LogNormal.mode (d : LogNormal) : F64 :=
  F64.exp (F64.sub d.mu (F64.mul d.sigma d.sigma))

/-- `LogNormal::min`: `0.0`. -/
def LogNormal.min (d : LogNormal) : F64 := F64.fin 0

/-- `LogNormal::max`: `f64::INFINITY`. -/
def LogNormal.max (d : LogNormal) : F64 := F64.posInf

open Classical in
/-- `LogNormal::pdf`: `0.0` when `x < 0.0`, otherwise
`(-0.5 * d * d).exp() / (x * SQRT_2PI * sigma)` with
`d = (x.ln() - mu) / sigma`. -/
noncomputable def LogNormal.pdf (d : LogNormal) (x : F64) : F64 :=
  if F64.lt x (F64.fin 0) then
    F64.fin 0
  else
    let dd := F64.div (F64.sub (F64.ln x) d.mu) d.sigma
    F64.div (F64.exp (F64.mul (F64.mul (F64.fin (-(1 / 2))) dd) dd))
      (F64.mul (F64.mul x SQRT_2PI) d.sigma)

open Classical in
/-- `LogNormal::ln_pdf`: `f64::NEG_INFINITY` when `x < 0.0`, otherwise
`(-0.5 * d * d) - LN_SQRT_2PI - (x * sigma).ln()` with
`d = (x.ln() - mu) / sigma`. -/
noncomputable def LogNormal.ln_pdf (d : LogNormal) (x : F64) : F64 :=
  if F64.lt x (F64.fin 0) then
    F64.negInf
  else
    let dd := F64.div (F64.sub (F64.ln x) d.mu) d.sigma
    F64.sub (F64.sub (F64.mul (F64.mul (F64.fin (-(1 / 2))) dd) dd) LN_SQRT_2PI)
      (F64.ln (F64.mul x d.sigma))

/-- The acceptance radius computed inside `polar_transform`
(`normal.rs` line 193): `r = v1 * v2 + v2 * v2` with `v1 = 2a - 1`,
`v2 = 2b - 1`, exactly as the source writes it. -/
noncomputable def polar_radius (a b : F64) : F64 :=
  let v1 := F64.sub (F64.mul (F64.fin 2) a) (F64.fin 1)
  let v2 := F64.sub (F64.mul (F64.fin 2) b) (F64.fin 1)
  F64.add (F64.mul v1 v2) (F64.mul v2 v2)

open Classical in
/-- `polar_transform`: maps two uniforms to `v1, v2`, computes
`r = v1 * v2 + v2 * v2`, rejects when `r >= 1.0 || r == 0.0`, and on
acceptance scales by `fac = (-2.0 * r.ln() / r).sqrt()`. -/
noncomputable def polar_transform (a b : F64) : F64 × F64 × Bool :=
  let v1 := F64.sub (F64.mul (F64.fin 2) a) (F64.fin 1)
  let v2 := F64.sub (F64.mul (F64.fin 2) b) (F64.fin 1)
  let r := F64.add (F64.mul v1 v2) (F64.mul v2 v2)
  if F64.le (F64.fin 1) r ∨ F64.ieeeEq r (F64.fin 0) then
    (F64.fin 0, F64.fin 0, false)
  else
    let fac := F64.sqrt (F64.div (F64.mul (F64.fin (-2)) (F64.ln r)) r)
    (F64.mul v1 fac, F64.mul v2 fac, true)

open Classical in
/-- `sample_unchecked`: the rejection loop, modelled functionally. The
mutable uniform source is a stream `u : ℕ → F64` of successive `next_f64`
results; the loop returns `mean + std_dev * tuple.0` for the first pair of
consecutive draws `(u (2n), u (2n+1))` accepted by `polar_transform`, and
`none` when no pair is ever accepted (the unbounded loop diverges). -/
noncomputable def sample_unchecked (u : ℕ → F64) (mean std_dev : F64) :
    Option F64 :=
  if h : ∃ n, (polar_transform (u (2 * n)) (u (2 * n + 1))).2.2 = true then
    some (F64.add mean (F64.mul std_dev
      (polar_transform (u (2 * Nat.find h)) (u (2 * Nat.find h + 1))).1))
  else
    none

/-- `Distribution::sample` for `Normal`: `sample_unchecked(r, mu, sigma)`. -/
noncomputable def Normal.sample (d : Normal) (u : ℕ → F64) : Option F64 :=
  sample_unchecked u d.mu d.sigma

/-- `Distribution::sample` for `LogNormal`:
`sample_unchecked(r, mu, sigma).exp()`. -/
noncomputable def LogNormal.sample (d : LogNormal) (u : ℕ → F64) : Option F64 :=
  Option.map F64.exp (sample_unchecked u d.mu d.sigma)

/-- The value inside an `Ok` result (`NaN` for the error case, which the
two `cdf` implementations never produce). -/
def okValue : Except StatsError F64 → F64
  | Except.ok v => v
  | Except.error _ => F64.NaN

/-- The parameter-validation condition of the claims, spelled out on the
model: `mean` is NaN, or `std_dev` is NaN, or `std_dev <= 0` in the IEEE
sense (`−∞` or a finite value `≤ 0`). -/
def badParamsCond (mean std_dev : F64) : Prop :=
  mean = F64.NaN ∨ std_dev = F64.NaN ∨ std_dev = F64.negInf ∨
    ∃ t : ℝ, std_dev = F64.fin t ∧ t ≤ 0

namespace F64

@[simp] theorem isNaN_NaN : isNaN NaN = true := rfl

@[simp] theorem isNaN_posInf : isNaN posInf = false := rfl

@[simp] theorem isNaN_negInf : isNaN negInf = false := rfl

@[simp] theorem isNaN_fin (x : ℝ) : isNaN (fin x) = false := rfl

@[simp] theorem add_fin_fin (x y : ℝ) : add (fin x) (fin y) = fin (x + y) := rfl

@[simp] theorem add_fin_posInf (x : ℝ) : add (fin x) posInf = posInf := rfl

@[simp] theorem add_posInf_fin (y : ℝ) : add posInf (fin y) = posInf := rfl

@[simp] theorem add_posInf_posInf : add posInf posInf = posInf := rfl

@[simp] theorem add_fin_negInf (x : ℝ) : add (fin x) negInf = negInf := rfl

@[simp] theorem add_negInf_fin (y : ℝ) : add negInf (fin y) = negInf := rfl

@[simp] theorem add_negInf_negInf : add negInf negInf = negInf := rfl

@[simp] theorem add_posInf_negInf : add posInf negInf = NaN := rfl

@[simp] theorem add_negInf_posInf : add negInf posInf = NaN := rfl

@[simp] theorem add_NaN_left (y : F64) : add NaN y = NaN := by
  cases y <;> rfl

@[simp] theorem add_fin_NaN (x : ℝ) : add (fin x) NaN = NaN := rfl

@[simp] theorem add_posInf_NaN : add posInf NaN = NaN := rfl

@[simp] theorem add_negInf_NaN : add negInf NaN = NaN := rfl

@[simp] theorem sub_fin_fin (x y : ℝ) : sub (fin x) (fin y) = fin (x - y) := by
  simp [sub, neg, sub_eq_add_neg]

@[simp] theorem sub_fin_negInf (x : ℝ) : sub (fin x) negInf = posInf := rfl

@[simp] theorem sub_fin_posInf (x : ℝ) : sub (fin x) posInf = negInf := rfl

@[simp] theorem sub_posInf_fin (y : ℝ) : sub posInf (fin y) = posInf := rfl

@[simp] theorem sub_negInf_fin (y : ℝ) : sub negInf (fin y) = negInf := rfl

@[simp] theorem sub_posInf_negInf : sub posInf negInf = posInf := rfl

@[simp] theorem sub_negInf_posInf : sub negInf posInf = negInf := rfl

@[simp] theorem sub_posInf_posInf : sub posInf posInf = NaN := rfl

@[simp] theorem sub_negInf_negInf : sub negInf negInf = NaN := rfl

@[simp] theorem sub_fin_NaN (x : ℝ) : sub (fin x) NaN = NaN := rfl

@[simp] theorem sub_NaN_left (y : F64) : sub NaN y = NaN := by
  cases y <;> rfl

@[simp] theorem mul_fin_fin (x y : ℝ) : mul (fin x) (fin y) = fin (x * y) := rfl

@[simp] theorem mul_posInf_posInf : mul posInf posInf = posInf := rfl

@[simp] theorem mul_posInf_negInf : mul posInf negInf = negInf := rfl

@[simp] theorem mul_negInf_posInf : mul negInf posInf = negInf := rfl

@[simp] theorem mul_negInf_negInf : mul negInf negInf = posInf := rfl

@[simp] theorem mul_NaN_left (y : F64) : mul NaN y = NaN := by
  cases y <;> rfl

@[simp] theorem mul_fin_NaN (x : ℝ) : mul (fin x) NaN = NaN := rfl

@[simp] theorem mul_posInf_NaN : mul posInf NaN = NaN := rfl

@[simp] theorem mul_negInf_NaN : mul negInf NaN = NaN := rfl

theorem mul_posInf_fin_of_pos {y : ℝ} (h : 0 < y) : mul posInf (fin y) = posInf := by
  simp [mul, h, h.ne']

theorem mul_fin_posInf_of_pos {x : ℝ} (h : 0 < x) : mul (fin x) posInf = posInf := by
  simp [mul, h, h.ne']

theorem mul_fin_posInf_of_neg {x : ℝ} (h : x < 0) : mul (fin x) posInf = negInf := by
  simp [mul, h.ne, not_lt.mpr h.le]

theorem mul_fin_negInf_of_pos {x : ℝ} (h : 0 < x) : mul (fin x) negInf = negInf := by
  simp [mul, h, h.ne']

theorem mul_fin_negInf_of_neg {x : ℝ} (h : x < 0) : mul (fin x) negInf = posInf := by
  simp [mul, h.ne, not_lt.mpr h.le]

theorem mul_negInf_fin_of_pos {y : ℝ} (h : 0 < y) : mul negInf (fin y) = negInf := by
  simp [mul, h, h.ne']

theorem div_fin_fin {y : ℝ} (x : ℝ) (h : y ≠ 0) :
    div (fin x) (fin y) = fin (x / y) := by
  simp [div, h]

@[simp] theorem div_zero_zero : div (fin 0) (fin 0) = NaN := by
  simp [div]

@[simp] theorem div_fin_posInf (x : ℝ) : div (fin x) posInf = fin 0 := rfl

@[simp] theorem div_fin_negInf (x : ℝ) : div (fin x) negInf = fin 0 := rfl

@[simp] theorem div_posInf_posInf : div posInf posInf = NaN := rfl

@[simp] theorem div_negInf_posInf : div negInf posInf = NaN := rfl

@[simp] theorem div_NaN_left (y : F64) : div NaN y = NaN := by
  cases y <;> rfl

@[simp] theorem div_fin_NaN (x : ℝ) : div (fin x) NaN = NaN := rfl

theorem div_posInf_fin_of_nonneg {y : ℝ} (h : 0 ≤ y) : div posInf (fin y) = posInf := by
  simp [div, h]

theorem div_negInf_fin_of_nonneg {y : ℝ} (h : 0 ≤ y) : div negInf (fin y) = negInf := by
  simp [div, h]

@[simp] theorem exp_fin (x : ℝ) : exp (fin x) = fin (Real.exp x) := rfl

@[simp] theorem exp_posInf : exp posInf = posInf := rfl

@[simp] theorem exp_negInf : exp negInf = fin 0 := rfl

@[simp] theorem exp_NaN : exp NaN = NaN := rfl

@[simp] theorem ln_posInf : ln posInf = posInf := rfl

@[simp] theorem ln_negInf : ln negInf = NaN := rfl

@[simp] theorem ln_NaN : ln NaN = NaN := rfl

@[simp] theorem ln_fin_zero : ln (fin 0) = negInf := by
  simp [ln]

theorem ln_fin_of_pos {x : ℝ} (h : 0 < x) : ln (fin x) = fin (Real.log x) := by
  simp [ln, h.ne', not_lt.mpr h.le]

theorem sqrt_fin_of_nonneg {x : ℝ} (h : 0 ≤ x) : sqrt (fin x) = fin (Real.sqrt x) := by
  simp [sqrt, not_lt.mpr h]

@[simp] theorem sqrt_NaN : sqrt NaN = NaN := rfl

@[simp] theorem lt_fin_fin (x y : ℝ) : lt (fin x) (fin y) ↔ x < y := Iff.rfl

@[simp] theorem lt_NaN_left (y : F64) : ¬ lt NaN y := by
  cases y <;> exact fun h => h

@[simp] theorem lt_negInf_fin (y : ℝ) : lt negInf (fin y) := trivial

@[simp] theorem lt_negInf_posInf : lt negInf posInf := trivial

@[simp] theorem lt_posInf_left (y : F64) : ¬ lt posInf y := by
  cases y <;> exact fun h => h

@[simp] theorem le_fin_fin (x y : ℝ) : le (fin x) (fin y) ↔ x ≤ y := Iff.rfl

@[simp] theorem le_NaN_left (y : F64) : ¬ le NaN y := by
  cases y <;> exact fun h => h

@[simp] theorem le_negInf_negInf : le negInf negInf := trivial

@[simp] theorem le_negInf_fin (y : ℝ) : le negInf (fin y) := trivial

@[simp] theorem le_negInf_posInf : le negInf posInf := trivial

@[simp] theorem le_fin_posInf (x : ℝ) : le (fin x) posInf := trivial

@[simp] theorem le_posInf_posInf : le posInf posInf := trivial

@[simp] theorem le_posInf_fin (y : ℝ) : ¬ le posInf (fin y) := fun h => h

@[simp] theorem le_posInf_negInf : ¬ le posInf negInf := fun h => h

@[simp] theorem le_fin_negInf (x : ℝ) : ¬ le (fin x) negInf := fun h => h

@[simp] theorem le_fin_NaN (x : ℝ) : ¬ le (fin x) NaN := fun h => h

@[simp] theorem le_negInf_NaN : ¬ le negInf NaN := fun h => h

@[simp] theorem le_posInf_NaN : ¬ le posInf NaN := fun h => h

@[simp] theorem ieeeEq_fin_fin (x y : ℝ) : ieeeEq (fin x) (fin y) ↔ x = y := Iff.rfl

@[simp] theorem ieeeEq_posInf_fin (y : ℝ) : ¬ ieeeEq posInf (fin y) := fun h => h

@[simp] theorem ieeeEq_negInf_fin (y : ℝ) : ¬ ieeeEq negInf (fin y) := fun h => h

@[simp] theorem ieeeEq_NaN_left (y : F64) : ¬ ieeeEq NaN y := by
  cases y <;> exact fun h => h

end F64

@[simp] theorem okValue_ok (v : F64) : okValue (Except.ok v) = v := rfl

theorem normal_new_ok (m s : ℝ) (hs : 0 < s) :
    Normal.new (F64.fin m) (F64.fin s) = Except.ok ⟨F64.fin m, F64.fin s⟩ := by
  rw [Normal.new, if_neg]
  simpa using hs

theorem lognormal_new_ok (m s : ℝ) (hs : 0 < s) :
    LogNormal.new (F64.fin m) (F64.fin s) = Except.ok ⟨F64.fin m, F64.fin s⟩ := by
  rw [LogNormal.new, if_neg]
  simpa using hs

theorem normal_new_eq_ok {mean sd : F64} {d : Normal}
    (h : Normal.new mean sd = Except.ok d) : d = ⟨mean, sd⟩ := by
  rw [Normal.new] at h
  split_ifs at h
  exact (Except.ok.inj h).symm

theorem lognormal_new_eq_ok {mean sd : F64} {d : LogNormal}
    (h : LogNormal.new mean sd = Except.ok d) : d = ⟨mean, sd⟩ := by
  rw [LogNormal.new] at h
  split_ifs at h
  exact (Except.ok.inj h).symm

/-- C1: the claim asserts the acceptance radius equals the Marsaglia
radius `v1² + v2²` for every uniform pair; at `(a, b) = (0, 3/4)` — that
is, `(v1, v2) = (−1, 1/2)` — the radius the source computes,
`v1·v2 + v2·v2`, evaluates to `−1/4`, while `v1² + v2²` is `5/4`. -/
theorem C1_radius_deviates_from_marsaglia :
    polar_radius (F64.fin 0) (F64.fin (3 / 4)) = F64.fin (-(1 / 4)) ∧
    (2 * (0 : ℝ) - 1) * (2 * (0 : ℝ) - 1) +
      (2 * (3 / 4 : ℝ) - 1) * (2 * (3 / 4 : ℝ) - 1) = 5 / 4 ∧
    (-(1 / 4) : ℝ) ≠ 5 / 4 := by
  refine ⟨?_, by norm_num, by norm_num⟩
  rw [polar_radius]
  norm_num

/-- C2 counterexample: at `(a, b) = (0, 3/4)` the radius is `−1/4`, which
does not satisfy `0 < r`, yet `polar_transform` accepts the pair. -/
theorem C2_accepts_negative_radius :
    (polar_transform (F64.fin 0) (F64.fin (3 / 4))).2.2 = true ∧
    polar_radius (F64.fin 0) (F64.fin (3 / 4)) = F64.fin (-(1 / 4)) ∧
    ¬ F64.lt (F64.fin 0) (F64.fin (-(1 / 4) : ℝ)) := by
  refine ⟨?_, ?_, by simp⟩
  · rw [polar_transform]
    rw [if_neg]
    norm_num [F64.ieeeEq]
  · rw [polar_radius]
    norm_num

/-- C2 (amended): for uniforms `a, b ∈ [0,1)`, `polar_transform` accepts
the pair iff the radius `r = v1·v2 + v2·v2` satisfies `r < 1` and
`r ≠ 0`; pairs with `r ≥ 1` or `r = 0` are rejected (and the sampling
loop redraws), but pairs with negative radius are accepted. -/
theorem C2_accept_iff (a b : ℝ) (ha0 : 0 ≤ a) (ha1 : a < 1)
    (hb0 : 0 ≤ b) (hb1 : b < 1) :
    ((polar_transform (F64.fin a) (F64.fin b)).2.2 = true ↔
      ((2 * a - 1) * (2 * b - 1) + (2 * b - 1) * (2 * b - 1) < 1 ∧
        (2 * a - 1) * (2 * b - 1) + (2 * b - 1) * (2 * b - 1) ≠ 0)) := by
  rw [polar_transform]
  simp only [F64.mul_fin_fin, F64.sub_fin_fin, F64.add_fin_fin]
  split_ifs with hc
  · simp only [show ((F64.fin 0, F64.fin 0, false).2.2 = true) = False by simp,
      false_iff]
    rcases (by simpa [F64.ieeeEq] using hc :
        1 ≤ (2 * a - 1) * (2 * b - 1) + (2 * b - 1) * (2 * b - 1) ∨
        (2 * a - 1) * (2 * b - 1) + (2 * b - 1) * (2 * b - 1) = 0) with h | h
    · rintro ⟨h1, -⟩
      linarith
    · rintro ⟨-, h2⟩
      exact h2 h
  · have hc' := (by simpa [F64.ieeeEq, not_or] using hc :
        ¬ (1 : ℝ) ≤ (2 * a - 1) * (2 * b - 1) + (2 * b - 1) * (2 * b - 1) ∧
        (2 * a - 1) * (2 * b - 1) + (2 * b - 1) * (2 * b - 1) ≠ 0)
    simpa using ⟨not_le.mp hc'.1, hc'.2⟩

/-- C2 witness: at `(a, b) = (3/4, 3/4)` the radius is `1/2 ∈ (0,1)` and
the amended acceptance equivalence holds. -/
theorem C2_accept_iff_witness :
    (0 : ℝ) ≤ 3 / 4 ∧ (3 / 4 : ℝ) < 1 ∧
    ((polar_transform (F64.fin (3 / 4)) (F64.fin (3 / 4))).2.2 = true ↔
      ((2 * (3 / 4 : ℝ) - 1) * (2 * (3 / 4 : ℝ) - 1) +
          (2 * (3 / 4 : ℝ) - 1) * (2 * (3 / 4 : ℝ) - 1) < 1 ∧
        (2 * (3 / 4 : ℝ) - 1) * (2 * (3 / 4 : ℝ) - 1) +
          (2 * (3 / 4 : ℝ) - 1) * (2 * (3 / 4 : ℝ) - 1) ≠ 0)) :=
  ⟨by norm_num, by norm_num,
    C2_accept_iff (3 / 4) (3 / 4) (by norm_num) (by norm_num) (by norm_num)
      (by norm_num)⟩

/-- C3: both constructors return `BadParams` exactly when the mean is NaN,
the standard deviation is NaN, or the standard deviation is `≤ 0` in the
IEEE sense; on all other arguments they succeed and store the arguments
unchanged. -/
theorem C3_new_badparams_iff (mean sd : F64) :
    ((Normal.new mean sd = Except.error StatsError.BadParams) ↔
      badParamsCond mean sd) ∧
    ((Normal.new mean sd = Except.ok ⟨mean, sd⟩) ↔ ¬ badParamsCond mean sd) ∧
    ((LogNormal.new mean sd = Except.error StatsError.BadParams) ↔
      badParamsCond mean sd) ∧
    ((LogNormal.new mean sd = Except.ok ⟨mean, sd⟩) ↔ ¬ badParamsCond mean sd) := by
  have key : (mean.isNaN = true ∨ sd.isNaN = true ∨ F64.le sd (F64.fin 0)) ↔
      badParamsCond mean sd := by
    cases mean <;> cases sd <;> simp [badParamsCond, F64.le]
  rw [Normal.new, LogNormal.new]
  by_cases h : mean.isNaN = true ∨ sd.isNaN = true ∨ F64.le sd (F64.fin 0)
  · rw [if_pos h, if_pos h]
    exact ⟨iff_of_true rfl (key.mp h),
      iff_of_false (by simp) (not_not_intro (key.mp h)),
      iff_of_true rfl (key.mp h),
      iff_of_false (by simp) (not_not_intro (key.mp h))⟩
  · rw [if_neg h, if_neg h]
    exact ⟨iff_of_false (by simp) (fun hb => h (key.mpr hb)),
      iff_of_true rfl (fun hb => h (key.mpr hb)),
      iff_of_false (by simp) (fun hb => h (key.mpr hb)),
      iff_of_true rfl (fun hb => h (key.mpr hb))⟩

/-- C4 counterexample: `LogNormal::new(0, 1)` succeeds, but the `mean()`
accessor returns `exp(1/2)`, not the construction argument `0`. -/
theorem C4_lognormal_mean_not_argument :
    LogNormal.new (F64.fin 0) (F64.fin 1) = Except.ok ⟨F64.fin 0, F64.fin 1⟩ ∧
    LogNormal.mean ⟨F64.fin 0, F64.fin 1⟩ ≠ F64.fin 0 := by
  refine ⟨lognormal_new_ok 0 1 (by norm_num), ?_⟩
  rw [LogNormal.mean, F64.mul_fin_fin,
    F64.div_fin_fin _ (by norm_num : (2 : ℝ) ≠ 0), F64.add_fin_fin, F64.exp_fin]
  simp [Real.exp_ne_zero]

/-- C4 (amended): Normal's `mean()`/`std_dev()` report the construction
arguments; LogNormal stores the arguments unchanged in its `mu`/`sigma`
fields, but its `mean()`/`std_dev()` accessors return the log-normal
law's own moments `exp(mu + σ²/2)` and `√variance`, not the arguments. -/
theorem C4_accessors (mean sd : F64) (n : Normal) (d : LogNormal)
    (hn : Normal.new mean sd = Except.ok n)
    (hd : LogNormal.new mean sd = Except.ok d) :
    Normal.mean n = mean ∧ Normal.std_dev n = sd ∧
    d.mu = mean ∧ d.sigma = sd ∧
    LogNormal.mean d =
      F64.exp (F64.add mean (F64.div (F64.mul sd sd) (F64.fin 2))) ∧
    LogNormal.std_dev d = F64.sqrt (LogNormal.variance d) := by
  obtain rfl := normal_new_eq_ok hn
  obtain rfl := lognormal_new_eq_ok hd
  exact ⟨rfl, rfl, rfl, rfl, rfl, rfl⟩

/-- C4 witness: the amended accessor facts at `(mean, std_dev) = (0, 1)`. -/
theorem C4_accessors_witness :
    Normal.mean ⟨F64.fin 0, F64.fin 1⟩ = F64.fin 0 ∧
    Normal.std_dev ⟨F64.fin 0, F64.fin 1⟩ = F64.fin 1 ∧
    (⟨F64.fin 0, F64.fin 1⟩ : LogNormal).mu = F64.fin 0 ∧
    (⟨F64.fin 0, F64.fin 1⟩ : LogNormal).sigma = F64.fin 1 ∧
    LogNormal.mean ⟨F64.fin 0, F64.fin 1⟩ =
      F64.exp (F64.add (F64.fin 0)
        (F64.div (F64.mul (F64.fin 1) (F64.fin 1)) (F64.fin 2))) ∧
    LogNormal.std_dev ⟨F64.fin 0, F64.fin 1⟩ =
      F64.sqrt (LogNormal.variance ⟨F64.fin 0, F64.fin 1⟩) :=
  C4_accessors (F64.fin 0) (F64.fin 1) ⟨F64.fin 0, F64.fin 1⟩
    ⟨F64.fin 0, F64.fin 1⟩ (normal_new_ok 0 1 (by norm_num))
    (lognormal_new_ok 0 1 (by norm_num))

/-- C5: for every validly constructed LogNormal, every erfc collaborator,
and every `x < 0` in the IEEE sense, `pdf` returns exactly `0`, `cdf`
returns exactly `Ok(0)`, and `ln_pdf` returns exactly `−∞`. -/
theorem C5_negative_support (mean sd : F64) (d : LogNormal)
    (hd : LogNormal.new mean sd = Except.ok d)
    (erfc : F64 → F64) (x : F64) (hx : F64.lt x (F64.fin 0)) :
    LogNormal.pdf d x = F64.fin 0 ∧
    LogNormal.cdf erfc d x = Except.ok (F64.fin 0) ∧
    LogNormal.ln_pdf d x = F64.negInf := by
  refine ⟨?_, ?_, ?_⟩
  · rw [LogNormal.pdf, if_pos hx]
  · rw [LogNormal.cdf, if_pos hx]
  · rw [LogNormal.ln_pdf, if_pos hx]

/-- C5 witness: the boundary facts at `LogNormal(0, 1)` and `x = −1`. -/
theorem C5_negative_support_witness :
    LogNormal.pdf ⟨F64.fin 0, F64.fin 1⟩ (F64.fin (-1)) = F64.fin 0 ∧
    LogNormal.cdf (fun v => v) ⟨F64.fin 0, F64.fin 1⟩ (F64.fin (-1)) =
      Except.ok (F64.fin 0) ∧
    LogNormal.ln_pdf ⟨F64.fin 0, F64.fin 1⟩ (F64.fin (-1)) = F64.negInf :=
  C5_negative_support (F64.fin 0) (F64.fin 1) ⟨F64.fin 0, F64.fin 1⟩
    (lognormal_new_ok 0 1 (by norm_num)) (fun v => v) (F64.fin (-1))
    ((F64.lt_fin_fin _ _).mpr (by norm_num))

/-- C6: for every valid parameter pair and every state of the uniform
source, the LogNormal sample is `exp` of the Normal sample drawn with the
same parameters from the same stream, consuming the same draws. -/
theorem C6_lognormal_delegates (mean sd : F64) (n : Normal) (d : LogNormal)
    (hn : Normal.new mean sd = Except.ok n)
    (hd : LogNormal.new mean sd = Except.ok d)
    (u : ℕ → F64) :
    LogNormal.sample d u = Option.map F64.exp (Normal.sample n u) := by
  obtain rfl := normal_new_eq_ok hn
  obtain rfl := lognormal_new_eq_ok hd
  rfl

/-- C6 witness: delegation at `(mean, std_dev) = (0, 1)` on the constant
stream `3/4`. -/
theorem C6_lognormal_delegates_witness :
    LogNormal.sample ⟨F64.fin 0, F64.fin 1⟩ (fun _ => F64.fin (3 / 4)) =
      Option.map F64.exp
        (Normal.sample ⟨F64.fin 0, F64.fin 1⟩ (fun _ => F64.fin (3 / 4))) :=
  C6_lognormal_delegates (F64.fin 0) (F64.fin 1) ⟨F64.fin 0, F64.fin 1⟩
    ⟨F64.fin 0, F64.fin 1⟩ (normal_new_ok 0 1 (by norm_num))
    (lognormal_new_ok 0 1 (by norm_num)) (fun _ => F64.fin (3 / 4))

/-- C7: for every validly constructed Normal and LogNormal, every erfc
collaborator, and every input (NaN and infinities included), `cdf`
returns `Ok`; the error branch is never produced. -/
theorem C7_cdf_never_errs (mean sd : F64) (n : Normal) (d : LogNormal)
    (hn : Normal.new mean sd = Except.ok n)
    (hd : LogNormal.new mean sd = Except.ok d)
    (erfc : F64 → F64) (x : F64) :
    (∃ v, Normal.cdf erfc n x = Except.ok v) ∧
    (∃ v, LogNormal.cdf erfc d x = Except.ok v) := by
  refine ⟨⟨_, rfl⟩, ?_⟩
  rw [LogNormal.cdf]
  split_ifs <;> exact ⟨_, rfl⟩

/-- C7 witness: `cdf` returns `Ok` at the NaN input for both
distributions constructed with `(0, 1)`. -/
theorem C7_cdf_never_errs_witness :
    (∃ v, Normal.cdf (fun w => w) ⟨F64.fin 0, F64.fin 1⟩ F64.NaN =
      Except.ok v) ∧
    (∃ v, LogNormal.cdf (fun w => w) ⟨F64.fin 0, F64.fin 1⟩ F64.NaN =
      Except.ok v) :=
  C7_cdf_never_errs (F64.fin 0) (F64.fin 1) ⟨F64.fin 0, F64.fin 1⟩
    ⟨F64.fin 0, F64.fin 1⟩ (normal_new_ok 0 1 (by norm_num))
    (lognormal_new_ok 0 1 (by norm_num)) (fun w => w) F64.NaN

/-- C9: a Normal constructed with finite `mu` and `sigma = +∞` is valid,
and the closed-form formulas propagate the infinity: `variance = +∞`,
`entropy = +∞`, `pdf(x) = 0` for every finite `x`, and `mean()` still
returns the finite `mu`. -/
theorem C9_infinite_sigma_propagates (m : ℝ) :
    Normal.new (F64.fin m) F64.posInf = Except.ok ⟨F64.fin m, F64.posInf⟩ ∧
    Normal.variance ⟨F64.fin m, F64.posInf⟩ = F64.posInf ∧
    Normal.entropy ⟨F64.fin m, F64.posInf⟩ = F64.posInf ∧
    Normal.mean ⟨F64.fin m, F64.posInf⟩ = F64.fin m ∧
    ∀ t : ℝ, Normal.pdf ⟨F64.fin m, F64.posInf⟩ (F64.fin t) = F64.fin 0 := by
  refine ⟨?_, rfl, ?_, rfl, ?_⟩
  · rw [Normal.new, if_neg]
    simp
  · rw [Normal.entropy]
    simp [LN_SQRT_2PIE, F64.ln]
  · intro t
    rw [Normal.pdf]
    simp only [F64.sub_fin_fin, F64.div_fin_posInf, F64.mul_fin_fin, F64.exp_fin]
    rw [SQRT_2PI, F64.mul_fin_posInf_of_pos (by positivity), F64.div_fin_posInf]

theorem nCdfVal_fin (f : ℝ → ℝ) (m s t : ℝ) (hs : 0 < s) :
    okValue (Normal.cdf (liftErfc f) ⟨F64.fin m, F64.fin s⟩ (F64.fin t)) =
      F64.fin (1 / 2 * f ((m - t) / (s * Real.sqrt 2))) := by
  have hne : s * Real.sqrt 2 ≠ 0 :=
    (mul_pos hs (Real.sqrt_pos.mpr (by norm_num))).ne'
  rw [Normal.cdf, okValue_ok, SQRT_2, F64.mul_fin_fin, F64.sub_fin_fin,
    F64.div_fin_fin _ hne]
  rfl

theorem nCdfVal_negInf (f : ℝ → ℝ) (m s : ℝ) (hs : 0 < s) :
    okValue (Normal.cdf (liftErfc f) ⟨F64.fin m, F64.fin s⟩ F64.negInf) =
      F64.fin 0 := by
  have hnn : (0 : ℝ) ≤ s * Real.sqrt 2 :=
    (mul_pos hs (Real.sqrt_pos.mpr (by norm_num))).le
  rw [Normal.cdf, okValue_ok, SQRT_2, F64.mul_fin_fin, F64.sub_fin_negInf,
    F64.div_posInf_fin_of_nonneg hnn]
  show F64.mul (F64.fin (1 / 2)) (F64.fin 0) = F64.fin 0
  rw [F64.mul_fin_fin]
  norm_num

theorem nCdfVal_posInf (f : ℝ → ℝ) (m s : ℝ) (hs : 0 < s) :
    okValue (Normal.cdf (liftErfc f) ⟨F64.fin m, F64.fin s⟩ F64.posInf) =
      F64.fin 1 := by
  have hnn : (0 : ℝ) ≤ s * Real.sqrt 2 :=
    (mul_pos hs (Real.sqrt_pos.mpr (by norm_num))).le
  rw [Normal.cdf, okValue_ok, SQRT_2, F64.mul_fin_fin, F64.sub_fin_posInf,
    F64.div_negInf_fin_of_nonneg hnn]
  show F64.mul (F64.fin (1 / 2)) (F64.fin 2) = F64.fin 1
  rw [F64.mul_fin_fin]
  norm_num

theorem lCdfVal_negInf (f : ℝ → ℝ) (m s : ℝ) :
    okValue (LogNormal.cdf (liftErfc f) ⟨F64.fin m, F64.fin s⟩ F64.negInf) =
      F64.fin 0 := by
  rw [LogNormal.cdf, if_pos (F64.lt_negInf_fin 0), okValue_ok]

theorem lCdfVal_fin_neg (f : ℝ → ℝ) (m s : ℝ) {t : ℝ} (ht : t < 0) :
    okValue (LogNormal.cdf (liftErfc f) ⟨F64.fin m, F64.fin s⟩ (F64.fin t)) =
      F64.fin 0 := by
  rw [LogNormal.cdf, if_pos ((F64.lt_fin_fin _ _).mpr ht), okValue_ok]

theorem lCdfVal_fin_zero (f : ℝ → ℝ) (m s : ℝ) (hs : 0 < s) :
    okValue (LogNormal.cdf (liftErfc f) ⟨F64.fin m, F64.fin s⟩ (F64.fin 0)) =
      F64.fin 0 := by
  have hnn : (0 : ℝ) ≤ s * Real.sqrt 2 :=
    (mul_pos hs (Real.sqrt_pos.mpr (by norm_num))).le
  rw [LogNormal.cdf, if_neg (by simp), okValue_ok, SQRT_2, F64.mul_fin_fin,
    F64.ln_fin_zero, F64.sub_fin_negInf, F64.div_posInf_fin_of_nonneg hnn]
  show F64.mul (F64.fin (1 / 2)) (F64.fin 0) = F64.fin 0
  rw [F64.mul_fin_fin]
  norm_num

theorem lCdfVal_fin_pos (f : ℝ → ℝ) (m s : ℝ) {t : ℝ} (ht : 0 < t)
    (hs : 0 < s) :
    okValue (LogNormal.cdf (liftErfc f) ⟨F64.fin m, F64.fin s⟩ (F64.fin t)) =
      F64.fin (1 / 2 * f ((m - Real.log t) / (s * Real.sqrt 2))) := by
  have hne : s * Real.sqrt 2 ≠ 0 :=
    (mul_pos hs (Real.sqrt_pos.mpr (by norm_num))).ne'
  rw [LogNormal.cdf, if_neg (by simp [not_lt.mpr ht.le]), okValue_ok, SQRT_2,
    F64.mul_fin_fin, F64.ln_fin_of_pos ht, F64.sub_fin_fin,
    F64.div_fin_fin _ hne]
  rfl

theorem lCdfVal_posInf (f : ℝ → ℝ) (m s : ℝ) (hs : 0 < s) :
    okValue (LogNormal.cdf (liftErfc f) ⟨F64.fin m, F64.fin s⟩ F64.posInf) =
      F64.fin 1 := by
  have hnn : (0 : ℝ) ≤ s * Real.sqrt 2 :=
    (mul_pos hs (Real.sqrt_pos.mpr (by norm_num))).le
  rw [LogNormal.cdf, if_neg (F64.lt_posInf_left _), okValue_ok, SQRT_2,
    F64.mul_fin_fin, F64.ln_posInf, F64.sub_fin_posInf,
    F64.div_negInf_fin_of_nonneg hnn]
  show F64.mul (F64.fin (1 / 2)) (F64.fin 2) = F64.fin 1
  rw [F64.mul_fin_fin]
  norm_num

theorem normal_cdf_le (f : ℝ → ℝ) (hanti : Antitone f) (h0 : ∀ t, 0 ≤ f t)
    (h2 : ∀ t, f t ≤ 2) (m s : ℝ) (hs : 0 < s) (x1 x2 : F64)
    (hx : F64.le x1 x2) :
    F64.le (okValue (Normal.cdf (liftErfc f) ⟨F64.fin m, F64.fin s⟩ x1))
      (okValue (Normal.cdf (liftErfc f) ⟨F64.fin m, F64.fin s⟩ x2)) := by
  have hc : (0 : ℝ) < s * Real.sqrt 2 :=
    mul_pos hs (Real.sqrt_pos.mpr (by norm_num))
  cases x1 with
  | NaN => exact absurd hx (F64.le_NaN_left _)
  | posInf =>
    cases x2 with
    | NaN => exact absurd hx (F64.le_posInf_NaN)
    | negInf => exact absurd hx (F64.le_posInf_negInf)
    | fin t => exact absurd hx (F64.le_posInf_fin t)
    | posInf =>
      rw [nCdfVal_posInf f m s hs]
      exact (F64.le_fin_fin _ _).mpr le_rfl
  | negInf =>
    cases x2 with
    | NaN => exact absurd hx (F64.le_negInf_NaN)
    | negInf =>
      rw [nCdfVal_negInf f m s hs]
      exact (F64.le_fin_fin _ _).mpr le_rfl
    | posInf =>
      rw [nCdfVal_negInf f m s hs, nCdfVal_posInf f m s hs]
      exact (F64.le_fin_fin _ _).mpr (by norm_num)
    | fin t =>
      rw [nCdfVal_negInf f m s hs, nCdfVal_fin f m s t hs]
      have := h0 ((m - t) / (s * Real.sqrt 2))
      exact (F64.le_fin_fin _ _).mpr (by linarith)
  | fin t1 =>
    cases x2 with
    | NaN => exact absurd hx (F64.le_fin_NaN t1)
    | negInf => exact absurd hx (F64.le_fin_negInf t1)
    | posInf =>
      rw [nCdfVal_fin f m s t1 hs, nCdfVal_posInf f m s hs]
      have := h2 ((m - t1) / (s * Real.sqrt 2))
      exact (F64.le_fin_fin _ _).mpr (by linarith)
    | fin t2 =>
      have ht : t1 ≤ t2 := (F64.le_fin_fin _ _).mp hx
      rw [nCdfVal_fin f m s t1 hs, nCdfVal_fin f m s t2 hs]
      have harg : (m - t2) / (s * Real.sqrt 2) ≤ (m - t1) / (s * Real.sqrt 2) :=
        (div_le_div_iff_of_pos_right hc).mpr (by linarith)
      have := hanti harg
      exact (F64.le_fin_fin _ _).mpr (by linarith)

theorem lognormal_cdf_le (f : ℝ → ℝ) (hanti : Antitone f) (h0 : ∀ t, 0 ≤ f t)
    (h2 : ∀ t, f t ≤ 2) (m s : ℝ) (hs : 0 < s) (x1 x2 : F64)
    (hx : F64.le x1 x2) :
    F64.le (okValue (LogNormal.cdf (liftErfc f) ⟨F64.fin m, F64.fin s⟩ x1))
      (okValue (LogNormal.cdf (liftErfc f) ⟨F64.fin m, F64.fin s⟩ x2)) := by
  have hc : (0 : ℝ) < s * Real.sqrt 2 :=
    mul_pos hs (Real.sqrt_pos.mpr (by norm_num))
  have hval : ∀ t : ℝ, ∃ v : ℝ,
      okValue (LogNormal.cdf (liftErfc f) ⟨F64.fin m, F64.fin s⟩ (F64.fin t)) =
        F64.fin v ∧ 0 ≤ v ∧ v ≤ 1 := by
    intro t
    rcases lt_trichotomy t 0 with h | h | h
    · exact ⟨0, lCdfVal_fin_neg f m s h, le_rfl, by norm_num⟩
    · subst h
      exact ⟨0, lCdfVal_fin_zero f m s hs, le_rfl, by norm_num⟩
    · refine ⟨1 / 2 * f ((m - Real.log t) / (s * Real.sqrt 2)),
        lCdfVal_fin_pos f m s h hs, ?_, ?_⟩
      · have := h0 ((m - Real.log t) / (s * Real.sqrt 2))
        linarith
      · have := h2 ((m - Real.log t) / (s * Real.sqrt 2))
        linarith
  cases x1 with
  | NaN => exact absurd hx (F64.le_NaN_left _)
  | posInf =>
    cases x2 with
    | NaN => exact absurd hx (F64.le_posInf_NaN)
    | negInf => exact absurd hx (F64.le_posInf_negInf)
    | fin t => exact absurd hx (F64.le_posInf_fin t)
    | posInf =>
      rw [lCdfVal_posInf f m s hs]
      exact (F64.le_fin_fin _ _).mpr le_rfl
  | negInf =>
    cases x2 with
    | NaN => exact absurd hx (F64.le_negInf_NaN)
    | negInf =>
      rw [lCdfVal_negInf f m s]
      exact (F64.le_fin_fin _ _).mpr le_rfl
    | posInf =>
      rw [lCdfVal_negInf f m s, lCdfVal_posInf f m s hs]
      exact (F64.le_fin_fin _ _).mpr (by norm_num)
    | fin t =>
      obtain ⟨v, hveq, hv0, -⟩ := hval t
      rw [lCdfVal_negInf f m s, hveq]
      exact (F64.le_fin_fin _ _).mpr hv0
  | fin t1 =>
    cases x2 with
    | NaN => exact absurd hx (F64.le_fin_NaN t1)
    | negInf => exact absurd hx (F64.le_fin_negInf t1)
    | posInf =>
      obtain ⟨v, hveq, -, hv1⟩ := hval t1
      rw [hveq, lCdfVal_posInf f m s hs]
      exact (F64.le_fin_fin _ _).mpr hv1
    | fin t2 =>
      have ht : t1 ≤ t2 := (F64.le_fin_fin _ _).mp hx
      rcases lt_trichotomy t1 0 with h1 | h1 | h1
      · obtain ⟨v, hveq, hv0, -⟩ := hval t2
        rw [lCdfVal_fin_neg f m s h1, hveq]
        exact (F64.le_fin_fin _ _).mpr hv0
      · subst h1
        obtain ⟨v, hveq, hv0, -⟩ := hval t2
        rw [lCdfVal_fin_zero f m s hs, hveq]
        exact (F64.le_fin_fin _ _).mpr hv0
      · have h2' : (0 : ℝ) < t2 := lt_of_lt_of_le h1 ht
        rw [lCdfVal_fin_pos f m s h1 hs, lCdfVal_fin_pos f m s h2' hs]
        have hlog : Real.log t1 ≤ Real.log t2 := Real.log_le_log h1 ht
        have harg : (m - Real.log t2) / (s * Real.sqrt 2) ≤
            (m - Real.log t1) / (s * Real.sqrt 2) :=
          (div_le_div_iff_of_pos_right hc).mpr (by linarith)
        have := hanti harg
        exact (F64.le_fin_fin _ _).mpr (by linarith)

/-- C8 (amended): with the erfc collaborator given standard semantics
(finite part antitone with values in `[0, 2]`, `erfc(+∞) = 0`,
`erfc(−∞) = 2`), the cdf of a Normal or LogNormal whose parameters are
finite (`mu` finite, `sigma` finite `> 0`) is non-decreasing over all
IEEE-comparable inputs `x1 ≤ x2`, infinite inputs included. For
`sigma = +∞` the claim fails: see the counterexample. -/
theorem C8_cdf_monotone (f : ℝ → ℝ) (hanti : Antitone f) (h0 : ∀ t, 0 ≤ f t)
    (h2 : ∀ t, f t ≤ 2) (m s : ℝ) (hs : 0 < s) (x1 x2 : F64)
    (hx : F64.le x1 x2) :
    F64.le (okValue (Normal.cdf (liftErfc f) ⟨F64.fin m, F64.fin s⟩ x1))
      (okValue (Normal.cdf (liftErfc f) ⟨F64.fin m, F64.fin s⟩ x2)) ∧
    F64.le (okValue (LogNormal.cdf (liftErfc f) ⟨F64.fin m, F64.fin s⟩ x1))
      (okValue (LogNormal.cdf (liftErfc f) ⟨F64.fin m, F64.fin s⟩ x2)) :=
  ⟨normal_cdf_le f hanti h0 h2 m s hs x1 x2 hx,
    lognormal_cdf_le f hanti h0 h2 m s hs x1 x2 hx⟩

/-- C8 witness: monotonicity at `Normal(0,1)` and `LogNormal(0,1)` with
the constant collaborator `1` on the inputs `0 ≤ 1`. -/
theorem C8_cdf_monotone_witness :
    (0 : ℝ) < 1 ∧ F64.le (F64.fin 0) (F64.fin 1) ∧
    (F64.le
      (okValue (Normal.cdf (liftErfc fun _ => 1) ⟨F64.fin 0, F64.fin 1⟩
        (F64.fin 0)))
      (okValue (Normal.cdf (liftErfc fun _ => 1) ⟨F64.fin 0, F64.fin 1⟩
        (F64.fin 1))) ∧
    F64.le
      (okValue (LogNormal.cdf (liftErfc fun _ => 1) ⟨F64.fin 0, F64.fin 1⟩
        (F64.fin 0)))
      (okValue (LogNormal.cdf (liftErfc fun _ => 1) ⟨F64.fin 0, F64.fin 1⟩
        (F64.fin 1)))) :=
  ⟨by norm_num, (F64.le_fin_fin _ _).mpr (by norm_num),
    C8_cdf_monotone (fun _ => 1) antitone_const (fun _ => by norm_num)
      (fun _ => by norm_num) 0 1 (by norm_num) (F64.fin 0) (F64.fin 1)
      ((F64.le_fin_fin _ _).mpr (by norm_num))⟩

/-- C8 counterexample: `Normal::new(0, +∞)` is validly constructed and
`−∞ ≤ 0`, yet `cdf(−∞)` evaluates `erfc(∞/∞) = erfc(NaN) = NaN`, so the
value inside `cdf(−∞)` is not `≤` the value inside `cdf(0)`: the claim
fails for `sigma = +∞`. -/
theorem C8_infinite_sigma_not_monotone :
    Normal.new (F64.fin 0) F64.posInf = Except.ok ⟨F64.fin 0, F64.posInf⟩ ∧
    F64.le F64.negInf (F64.fin 0) ∧
    ¬ F64.le
      (okValue (Normal.cdf (liftErfc fun _ => 1) ⟨F64.fin 0, F64.posInf⟩
        F64.negInf))
      (okValue (Normal.cdf (liftErfc fun _ => 1) ⟨F64.fin 0, F64.posInf⟩
        (F64.fin 0))) := by
  refine ⟨?_, F64.le_negInf_fin 0, ?_⟩
  · rw [Normal.new, if_neg]
    simp
  · have h1 : okValue (Normal.cdf (liftErfc fun _ => 1)
        ⟨F64.fin 0, F64.posInf⟩ F64.negInf) = F64.NaN := by
      rw [Normal.cdf, okValue_ok, SQRT_2,
        F64.mul_posInf_fin_of_pos (Real.sqrt_pos.mpr (by norm_num)),
        F64.sub_fin_negInf, F64.div_posInf_posInf]
      rfl
    rw [h1]
    exact F64.le_NaN_left _

/-- C10 (amended): for every validly constructed LogNormal with finite
`sigma > 0` whose `mu` is not `−∞`, at the support boundary `x = 0`
(not covered by the `x < 0` guard): `cdf(0)` returns `Ok(0)`, while
`pdf(0)` and `ln_pdf(0)` return NaN — the general formula evaluates
`0/0` in `pdf` and `(−∞) − (−∞)` in `ln_pdf` there. When `mu = −∞`,
`cdf(0)` itself evaluates `(−∞) − (−∞) = NaN`: see the counterexample. -/
theorem C10_boundary_zero (f : ℝ → ℝ) (mu : F64) (s : ℝ) (hs : 0 < s)
    (hnan : mu ≠ F64.NaN) (hninf : mu ≠ F64.negInf) :
    LogNormal.cdf (liftErfc f) ⟨mu, F64.fin s⟩ (F64.fin 0) =
      Except.ok (F64.fin 0) ∧
    LogNormal.pdf ⟨mu, F64.fin s⟩ (F64.fin 0) = F64.NaN ∧
    LogNormal.ln_pdf ⟨mu, F64.fin s⟩ (F64.fin 0) = F64.NaN := by
  have hnn : (0 : ℝ) ≤ s * Real.sqrt 2 :=
    (mul_pos hs (Real.sqrt_pos.mpr (by norm_num))).le
  have hneg : (-(1 / 2) : ℝ) < 0 := by norm_num
  cases mu with
  | NaN => exact absurd rfl hnan
  | negInf => exact absurd rfl hninf
  | posInf =>
    refine ⟨?_, ?_, ?_⟩
    · rw [LogNormal.cdf, if_neg (by simp), SQRT_2, F64.mul_fin_fin,
        F64.ln_fin_zero, F64.sub_posInf_negInf,
        F64.div_posInf_fin_of_nonneg hnn]
      show Except.ok (F64.mul (F64.fin (1 / 2)) (F64.fin 0)) = _
      rw [F64.mul_fin_fin]
      norm_num
    · rw [LogNormal.pdf, if_neg (by simp)]
      simp only [F64.ln_fin_zero, F64.sub_negInf_posInf,
        F64.div_negInf_fin_of_nonneg hs.le, F64.mul_fin_negInf_of_neg hneg,
        F64.mul_posInf_negInf, F64.exp_negInf, SQRT_2PI, F64.mul_fin_fin,
        zero_mul, F64.div_zero_zero]
    · rw [LogNormal.ln_pdf, if_neg (by simp)]
      simp only [F64.ln_fin_zero, F64.sub_negInf_posInf,
        F64.div_negInf_fin_of_nonneg hs.le, F64.mul_fin_negInf_of_neg hneg,
        F64.mul_posInf_negInf, LN_SQRT_2PI, F64.sub_negInf_fin,
        F64.mul_fin_fin, zero_mul, F64.sub_negInf_negInf]
  | fin m =>
    refine ⟨?_, ?_, ?_⟩
    · rw [LogNormal.cdf, if_neg (by simp), SQRT_2, F64.mul_fin_fin,
        F64.ln_fin_zero, F64.sub_fin_negInf,
        F64.div_posInf_fin_of_nonneg hnn]
      show Except.ok (F64.mul (F64.fin (1 / 2)) (F64.fin 0)) = _
      rw [F64.mul_fin_fin]
      norm_num
    · rw [LogNormal.pdf, if_neg (by simp)]
      simp only [F64.ln_fin_zero, F64.sub_negInf_fin,
        F64.div_negInf_fin_of_nonneg hs.le, F64.mul_fin_negInf_of_neg hneg,
        F64.mul_posInf_negInf, F64.exp_negInf, SQRT_2PI, F64.mul_fin_fin,
        zero_mul, F64.div_zero_zero]
    · rw [LogNormal.ln_pdf, if_neg (by simp)]
      simp only [F64.ln_fin_zero, F64.sub_negInf_fin,
        F64.div_negInf_fin_of_nonneg hs.le, F64.mul_fin_negInf_of_neg hneg,
        F64.mul_posInf_negInf, LN_SQRT_2PI, F64.mul_fin_fin, zero_mul,
        F64.sub_negInf_negInf]

/-- C10 witness: the boundary facts at `LogNormal(0, 1)` with the constant
collaborator `1`. -/
theorem C10_boundary_zero_witness :
    (0 : ℝ) < 1 ∧
    (LogNormal.cdf (liftErfc fun _ => 1) ⟨F64.fin 0, F64.fin 1⟩ (F64.fin 0) =
      Except.ok (F64.fin 0) ∧
    LogNormal.pdf ⟨F64.fin 0, F64.fin 1⟩ (F64.fin 0) = F64.NaN ∧
    LogNormal.ln_pdf ⟨F64.fin 0, F64.fin 1⟩ (F64.fin 0) = F64.NaN) :=
  ⟨by norm_num, C10_boundary_zero (fun _ => 1) (F64.fin 0) 1 (by norm_num)
    (by simp) (by simp)⟩

/-- C10 counterexample: `LogNormal::new(−∞, 1)` is validly constructed
with finite `sigma = 1 > 0`, yet `cdf(0)` returns `Ok(NaN)`, not `Ok(0)`:
the argument of erfc is `(−∞) − ln 0 = (−∞) − (−∞) = NaN`. -/
theorem C10_neg_inf_mu_cdf_nan :
    LogNormal.new F64.negInf (F64.fin 1) =
      Except.ok ⟨F64.negInf, F64.fin 1⟩ ∧
    LogNormal.cdf (liftErfc fun _ => 1) ⟨F64.negInf, F64.fin 1⟩ (F64.fin 0) =
      Except.ok F64.NaN ∧
    F64.NaN ≠ F64.fin 0 := by
  refine ⟨?_, ?_, by simp⟩
  · rw [LogNormal.new, if_neg]
    simp
  · rw [LogNormal.cdf, if_neg (by simp), F64.ln_fin_zero,
      F64.sub_negInf_negInf, F64.div_NaN_left]
    rfl

end Statrs
